import Mathlib

/-!
Verification development for the persona memory / trait / LLM-adapter core of
the `personal_ai_board` repository.  Go code is shallowly embedded:

* `float64` is modelled by `ℚ` (the numeric literals of the source are exact
  decimal fractions, so every arithmetic step of the source is exact here);
* Go `int` / `int64` (including `time.Duration` and `time.Time` instants,
  taken as nanoseconds since the epoch) are modelled by `Int`;
* Go maps are modelled by association lists; where the source only folds over
  a map with a commutative accumulation, the list order is irrelevant, and
  where Go's unspecified iteration order could matter we fix one
  linearization and say so at the definition;
* Go byte-strings are modelled by `String` (the inputs of interest are ASCII,
  where Go's byte-wise `strings.Contains`/`len` agree with the character-wise
  operations used here);
* a Go `sort.Slice` call (unstable, comparator-driven) is modelled by
  `List.insertionSort` over the reflexive totalization of the comparator;
  the source never depends on the order of comparator-ties;
* a Go slice-indexing panic is modelled by returning `none` from the
  enclosing operation.
-/

namespace PersonalAIBoard

/-! ### Small Go helpers -/

/-- Nanoseconds in one hour (`time.Hour`). -/
def hourNs : Int := 3600000000000

/-- Truncation of a rational toward zero: Go's `int(x)` conversion from
`float64`. -/
def goTrunc (q : ℚ) : Int := q.num.tdiv (q.den : Int)

/-- Sequence containment: `listContainsSeq h n` is true iff `n` occurs as a
contiguous run inside `h`.  Models Go's `strings.Contains` (on ASCII data
byte-wise and character-wise containment agree). -/
def listContainsSeq [BEq α] (haystack needle : List α) : Bool :=
  match haystack with
  | [] => needle.isEmpty
  | _ :: rest => needle.isPrefixOf haystack || listContainsSeq rest needle

/-- Go `strings.Contains s sub`. -/
def goContains (s sub : String) : Bool := listContainsSeq s.toList sub.toList

/-- Go `strings.ToLower` (character-wise; agrees with Go on ASCII). -/
def goToLower (s : String) : String := ⟨s.toList.map Char.toLower⟩

/-- Worker for `goFields`: split a character list on whitespace runs. -/
def fieldsAux : List Char → List Char → List String → List String
  | cur, [], acc => if cur.isEmpty then acc else acc ++ [⟨cur⟩]
  | cur, c :: rest, acc =>
      if c.isWhitespace then
        fieldsAux [] rest (if cur.isEmpty then acc else acc ++ [⟨cur⟩])
      else fieldsAux (cur ++ [c]) rest acc

/-- Go `strings.Fields`: the whitespace-separated words of `s`. -/
def goFields (s : String) : List String := fieldsAux [] s.toList []

/-- Go `strings.TrimSpace`: drop leading and trailing whitespace. -/
def goTrimSpace (s : String) : String :=
  ⟨((s.toList.dropWhile Char.isWhitespace).reverse.dropWhile Char.isWhitespace).reverse⟩

/-! ### Memory data model (`src/unnamed/part_003`, type `MemoryEntry`) -/

/-- Go's `MemoryType` is a named string type; its values are the five
constants `interaction`, `knowledge`, `personal`, `emotional`, `pattern`. -/
abbrev MemoryType := String

/-- One memory item.  `context` is `map[string]interface{}` in the source;
the scoring code only ever looks at context values through
`fmt.Sprintf("%v", value)`, so values are stored here in rendered form. -/
structure MemoryEntry where
  id : String
  content : String
  timestamp : Int
  tags : List String
  weight : ℚ
  context : List (String × String)
  type : MemoryType
  decay : ℚ
deriving DecidableEq, Repr

/-- Persona memory: three partitions plus context and configuration
(type `Memory` in the source). -/
structure Memory where
  personaID : String
  context : List (String × String)
  shortTerm : List MemoryEntry
  longTerm : List MemoryEntry
  workingMemory : List MemoryEntry
  shortTermLimit : Int
  longTermLimit : Int
  decayRate : ℚ
deriving DecidableEq, Repr

/-- Fresh memory for a persona (`NewMemory`). -/
def NewMemory (personaID : String) : Memory where
  personaID := personaID
  context := []
  shortTerm := []
  longTerm := []
  workingMemory := []
  shortTermLimit := 50
  longTermLimit := 200
  decayRate := 19/20

/-! ### Relevance scoring (`calculateRelevanceScore`) -/

/-- The additive part of `calculateRelevanceScore` (its first three loops):
0.5 per prompt word inside the content, 0.3 per tag/word overlap, 0.2 per
context pair mentioned in the prompt.  Each loop of the source is a fold
adding the same constants; map iteration over the entry context is a fold
over the association list (the sum is order-independent).  Depends only on
the entry's content, tags and context. -/
def scoreBase (memory : MemoryEntry) (promptLower : String)
    (promptWords : List String) : ℚ :=
  let contentLower := goToLower memory.content
  let score1 : ℚ := promptWords.foldl
    (fun acc word => if goContains contentLower word then acc + 1/2 else acc) 0
  let score2 : ℚ := memory.tags.foldl
    (fun acc tag =>
      let tagLower := goToLower tag
      promptWords.foldl
        (fun acc word =>
          if goContains tagLower word || goContains word tagLower then acc + 3/10
          else acc) acc) score1
  memory.context.foldl
    (fun acc kv =>
      let keyLower := goToLower kv.1
      let valueLower := goToLower kv.2
      if goContains promptLower keyLower || goContains promptLower valueLower then
        acc + 1/5
      else acc) score2

/-- Relevance of one entry against a (lowercased, tokenized) prompt;
faithful to `calculateRelevanceScore`: the additive base, then the decay,
weight, recency and type factors. -/
def calculateRelevanceScore (now : Int) (memory : MemoryEntry)
    (promptLower : String) (promptWords : List String) : ℚ :=
  let score3 := scoreBase memory promptLower promptWords
  let score4 := score3 * memory.decay
  let score5 := score4 * memory.weight
  let timeSince := now - memory.timestamp
  let score6 :=
    if timeSince < hourNs then score5 * (6/5)
    else if timeSince < hourNs * 24 then score5 * (11/10)
    else score5
  if memory.type = "emotional" then score6 * (23/20)
  else if memory.type = "pattern" then score6 * (11/10)
  else if memory.type = "personal" then score6 * (21/20)
  else score6

/-! ### Comparator relations for the `sort.Slice` calls -/

/-- Totalized comparator of `RetrieveRelevant`'s sort: score descending. -/
def scoredGE (a b : MemoryEntry × ℚ) : Prop := b.2 ≤ a.2

instance : DecidableRel scoredGE := fun a b => inferInstanceAs (Decidable (b.2 ≤ a.2))

instance : IsTotal (MemoryEntry × ℚ) scoredGE := ⟨fun a b => le_total b.2 a.2⟩

instance : IsTrans (MemoryEntry × ℚ) scoredGE := ⟨fun _ _ _ h1 h2 => le_trans h2 h1⟩

/-- Totalized comparator of the short-term consolidation sort:
`weight·decay` descending, ties by timestamp descending. -/
def stGE (a b : MemoryEntry) : Prop :=
  b.weight * b.decay < a.weight * a.decay ∨
    (a.weight * a.decay = b.weight * b.decay ∧ b.timestamp ≤ a.timestamp)

instance : DecidableRel stGE := fun _ _ => inferInstanceAs (Decidable (_ ∨ _))

/-- Totalized comparator of the long-term trim sort: `weight·decay`
descending. -/
def ltGE (a b : MemoryEntry) : Prop := b.weight * b.decay ≤ a.weight * a.decay

instance : DecidableRel ltGE := fun _ _ => inferInstanceAs (Decidable (_ ≤ _))

/-- Totalized comparator of `mergeMemories`' sort: timestamp descending. -/
def tsGE (a b : MemoryEntry) : Prop := b.timestamp ≤ a.timestamp

instance : DecidableRel tsGE := fun _ _ => inferInstanceAs (Decidable (_ ≤ _))

/-! ### Retrieval (`RetrieveRelevant`) -/

/-- Scored candidate list of `RetrieveRelevant`: all three partitions in
source order, scored, kept only above the 0.1 relevance floor. -/
def scoredMemories (now : Int) (mem : Memory) (promptLower : String)
    (promptWords : List String) : List (MemoryEntry × ℚ) :=
  let allMemories := mem.workingMemory ++ mem.shortTerm ++ mem.longTerm
  allMemories.foldl
    (fun acc m =>
      let score := calculateRelevanceScore now m promptLower promptWords
      if score > 1/10 then acc ++ [(m, score)] else acc) []

/-- Retrieval of the most relevant memories (`RetrieveRelevant`). -/
def RetrieveRelevant (now : Int) (mem : Memory) (prompt : String) (limit : Int) :
    List MemoryEntry :=
  let promptLower := goToLower prompt
  let promptWords := goFields promptLower
  let scored := scoredMemories now mem promptLower promptWords
  let sorted := List.insertionSort scoredGE scored
  let maxResults : Int := if limit > (scored.length : Int) then scored.length else limit
  (sorted.take maxResults.toNat).map (fun p => p.1)

/-! ### Consolidation (`consolidateMemories` and helpers) -/

/-- Similarity test between two memories (`areMemoriesSimilar`): same type,
timestamps within one hour, then tag Jaccard > 0.3 when both have tags,
else content-word Jaccard (words of length > 3) > 0.2.  Jaccard fractions
are exact here; the source computes them in `float64`, whose rounding never
crosses these thresholds for the list sizes involved. -/
def areMemoriesSimilar (m1 m2 : MemoryEntry) : Bool :=
  if m1.type ≠ m2.type then false
  else if (m1.timestamp - m2.timestamp).natAbs > hourNs.toNat then false
  else
    let commonTags := (m1.tags.filter (fun t1 => m2.tags.contains t1)).length
    if m1.tags.length > 0 && m2.tags.length > 0 then
      decide ((commonTags : ℚ) / ((m1.tags.length : ℚ) + (m2.tags.length : ℚ) - (commonTags : ℚ)) > 3/10)
    else
      let words1 := goFields (goToLower m1.content)
      let words2 := goFields (goToLower m2.content)
      let commonWords :=
        (words1.filter (fun w1 => w1.length > 3 && words2.contains w1)).length
      if words1.length > 0 && words2.length > 0 then
        decide ((commonWords : ℚ) / ((words1.length : ℚ) + (words2.length : ℚ) - (commonWords : ℚ)) > 1/5)
      else false

/-- Union of the tags of several memories (`mergeTags`).  The source
collects tags into a Go map and reads them back in unspecified order; we fix
the first-occurrence linearization (no caller depends on tag order). -/
def mergeTags (memories : List MemoryEntry) : List String :=
  memories.foldl
    (fun acc m => m.tags.foldl (fun acc t => if acc.contains t then acc else acc ++ [t]) acc)
    []

/-- Plain average of weights (`calculateAverageWeight`). -/
def calculateAverageWeight (memories : List MemoryEntry) : ℚ :=
  if memories.length = 0 then 1/2
  else (memories.foldl (fun acc m => acc + m.weight) 0) / (memories.length : ℚ)

/-- Plain average of decay values (`calculateAverageDecay`). -/
def calculateAverageDecay (memories : List MemoryEntry) : ℚ :=
  if memories.length = 0 then 1
  else (memories.foldl (fun acc m => acc + m.decay) 0) / (memories.length : ℚ)

/-- Zero value of `MemoryEntry` (what Go's `var e MemoryEntry` contains). -/
def zeroMemoryEntry : MemoryEntry where
  id := ""
  content := ""
  timestamp := 0
  tags := []
  weight := 0
  context := []
  type := ""
  decay := 1

/-- Merge several similar memories into one (`mergeMemories`).  Called only
with at least one element; the `headD` default is unreachable.  New-entry ids
come from `generateMemoryID`, i.e. persona id plus the current nanosecond
clock, here the explicit `now`. -/
def mergeMemories (pid : String) (now : Int) (memories : List MemoryEntry) : MemoryEntry :=
  if memories.length = 1 then memories.headD zeroMemoryEntry
  else
    let sorted := List.insertionSort tsGE memories
    let base := sorted.headD zeroMemoryEntry
    let contents := sorted.map (fun m => m.content)
    { id := pid ++ "_" ++ toString now
      content := "Consolidated: " ++ String.intercalate " | " contents
      timestamp := base.timestamp
      tags := mergeTags memories
      weight := calculateAverageWeight memories
      context := base.context
      type := base.type
      decay := calculateAverageDecay memories }

/-- Fuel-indexed body of `consolidateSimilarMemories`.  The Go loop walks the
list with a `used` marker set; grouping each unused element with all later
unused elements similar to it is the same as taking the head as group leader,
splitting the tail by similarity to it, and recursing on the dissimilar rest.
Fuel `n` bounds the number of leaders, so `n = length` never runs out. -/
def consolidateSimilarAux (pid : String) (now : Int) :
    Nat → List MemoryEntry → List MemoryEntry
  | 0, l => l
  | _ + 1, [] => []
  | n + 1, m :: rest =>
      let similar := rest.filter (fun x => areMemoriesSimilar m x)
      let remaining := rest.filter (fun x => ¬ areMemoriesSimilar m x)
      if similar.length > 0 then
        mergeMemories pid now (m :: similar) :: consolidateSimilarAux pid now n remaining
      else
        m :: consolidateSimilarAux pid now n remaining

/-- Merge similar memories pairwise (`consolidateSimilarMemories`). -/
def consolidateSimilarMemories (pid : String) (now : Int)
    (memories : List MemoryEntry) : List MemoryEntry :=
  consolidateSimilarAux pid now memories.length memories

/-- Decay update of one long-term entry: the body of the loop in
`applyMemoryDecay` before the removal check. -/
def applyDecayStep (now : Int) (decayRate : ℚ) (e : MemoryEntry) : MemoryEntry :=
  let timeSince : Int := now - e.timestamp
  let daysSince : ℚ := ((timeSince : ℚ) / hourNs) / 24
  let decayFactor : ℚ := if daysSince > 0 then 1 / (1 + daysSince * (1/10)) else 1
  { e with decay := e.decay * (decayRate * decayFactor) }

/-- The loop of `applyMemoryDecay`.  Go's `for i := range LongTerm` fixes the
iteration count to the length of the slice at entry; inside the loop the
slice is re-read, updated in place and, for entries decayed below 0.1,
shortened by one.  Indexing the shortened slice beyond its current length is
a Go runtime panic, modelled by `none`. -/
def applyDecayLoop (now : Int) (decayRate : ℚ) :
    Nat → Nat → List MemoryEntry → Option (List MemoryEntry)
  | 0, _, lt => some lt
  | fuel + 1, i, lt =>
      if i < lt.length then
        let e := applyDecayStep now decayRate (lt.getD i zeroMemoryEntry)
        let lt1 := lt.set i e
        if e.decay < 1/10 then
          applyDecayLoop now decayRate fuel (i + 1) (lt1.eraseIdx i)
        else
          applyDecayLoop now decayRate fuel (i + 1) lt1
      else
        none

/-- Decay pass over long-term memory (`applyMemoryDecay`). -/
def applyMemoryDecay (now : Int) (mem : Memory) : Option Memory :=
  (applyDecayLoop now mem.decayRate mem.longTerm.length 0 mem.longTerm).map
    (fun lt => { mem with longTerm := lt })

/-- Consolidation (`consolidateMemories`): keep the better half of short-term
memory, merge the rest into long-term, trim long-term over capacity, then run
the decay pass.  The trim `LongTerm[:LongTermLimit]` panics in Go when the
limit is negative (modelled by `none`); the decay pass can panic as modelled
in `applyDecayLoop`. -/
def consolidateMemories (now : Int) (mem : Memory) : Option Memory :=
  if (mem.shortTerm.length : Int) < mem.shortTermLimit.tdiv 2 then some mem
  else
    let sorted := List.insertionSort stGE mem.shortTerm
    let midPoint := sorted.length / 2
    let toConsolidate := sorted.drop midPoint
    let keep := sorted.take midPoint
    let consolidated := consolidateSimilarMemories mem.personaID now toConsolidate
    let lt1 := mem.longTerm ++ consolidated
    let lt2? : Option (List MemoryEntry) :=
      if (lt1.length : Int) > mem.longTermLimit then
        if mem.longTermLimit < 0 then none
        else some ((List.insertionSort ltGE lt1).take mem.longTermLimit.toNat)
      else some lt1
    match lt2? with
    | none => none
    | some lt2 =>
        (applyDecayLoop now mem.decayRate lt2.length 0 lt2).map
          (fun lt3 => { mem with shortTerm := keep, longTerm := lt3 })

/-- Working-memory rebuild (`updateWorkingMemory`): clear, copy the last five
short-term entries, then append the top-3 relevant memories (retrieved with
the fresh working memory already in place), deduplicated by id. -/
def updateWorkingMemory (now : Int) (mem : Memory) (prompt : String)
    (tags : List String) : Memory :=
  let recentLimit := min 5 mem.shortTerm.length
  let recent :=
    if recentLimit > 0 then mem.shortTerm.drop (mem.shortTerm.length - recentLimit) else []
  let memWm := { mem with workingMemory := recent }
  let relevant := RetrieveRelevant now memWm prompt 3
  let wmFinal := relevant.foldl
    (fun wm m => if wm.any (fun w => w.id = m.id) then wm else wm ++ [m]) recent
  { mem with workingMemory := wmFinal }

/-- Append a fresh memory entry (`AddMemory`): push onto short-term,
consolidate when the short-term limit is reached, rebuild working memory.
`none` is the consolidation panic propagating out of the call. -/
def AddMemory (now : Int) (mem : Memory) (content : String) (memType : MemoryType)
    (weight : ℚ) (tags : List String) (context : List (String × String)) :
    Option Memory :=
  let entry : MemoryEntry :=
    { id := mem.personaID ++ "_" ++ toString now
      content := content
      timestamp := now
      tags := tags
      weight := weight
      context := context
      type := memType
      decay := 1 }
  let mem1 := { mem with shortTerm := mem.shortTerm ++ [entry] }
  let mem2? :=
    if (mem1.shortTerm.length : Int) ≥ mem1.shortTermLimit then
      consolidateMemories now mem1
    else some mem1
  mem2?.map (fun m => updateWorkingMemory now m content tags)

/-! ### Trait model (`src/internal/persona/traits.go`)

Go's `PersonalityTraits` holds its trait categories as `map[string]TraitValue`
fields.  A Go map value is a reference into the heap, and the struct copy
`modified := *pt` in `ApplyContextModifier` copies the references, not the
maps.  To make that observable we model the heap explicitly: a trait map is
an association list, the heap is a list of such maps, and a
`PersonalityTraits` value holds heap references for the three categories the
modifier loop touches. -/

/-- A decoded trait value (`TraitValue` is `interface{}` holding the JSON
decode of a number or a string). -/
inductive TraitValue where
  | num (q : ℚ)
  | str (s : String)
deriving DecidableEq, Repr

/-- Contents of one Go trait map. -/
abbrev TraitMap := List (String × TraitValue)

/-- Go map membership check (`_, exists := m[k]`). -/
def tmHasKey (m : TraitMap) (k : String) : Bool := m.any (fun kv => kv.1 = k)

/-- Go map read (`v, ok := m[k]`). -/
def tmGet (m : TraitMap) (k : String) : Option TraitValue :=
  (m.find? (fun kv => kv.1 = k)).map (fun kv => kv.2)

/-- Go map write (`m[k] = v`): replace the binding if present, else append
(one linearization of Go's unordered map). -/
def tmSet (m : TraitMap) (k : String) (v : TraitValue) : TraitMap :=
  if tmHasKey m k then m.map (fun kv => if kv.1 = k then (k, v) else kv)
  else m ++ [(k, v)]

/-- The heap of live trait maps; references are indices. -/
structure TraitHeap where
  maps : List TraitMap
deriving DecidableEq, Repr

/-- Dereference a map (reads of a missing reference do not occur in the
modelled code paths). -/
def TraitHeap.read (h : TraitHeap) (r : Nat) : TraitMap := h.maps.getD r []

/-- In-place update of the map behind a reference. -/
def TraitHeap.write (h : TraitHeap) (r : Nat) (m : TraitMap) : TraitHeap :=
  ⟨h.maps.set r m⟩

/-- The `PersonalityTraits` struct, restricted to the fields the verified
code paths read: the three by-reference categories the modifier loop can
touch, and the persona's modifier table (never written, held by value). -/
structure PersonalityTraits where
  coreDimensions : Nat
  communicationStyle : Nat
  responsePatterns : Nat
  responseModifiers : List (String × TraitMap)
deriving DecidableEq, Repr

/-- Lookup in the `ResponseModifiers` Go map. -/
def findModifier (mods : List (String × TraitMap)) (context : String) :
    Option TraitMap :=
  (mods.find? (fun kv => kv.1 = context)).map (fun kv => kv.2)

/-- Context modifier application (`ApplyContextModifier`).  The source takes
a shallow struct copy `modified := *pt` — the category references are shared
with the input — then writes each modifier key into the first of
core-dimensions / communication-style / response-patterns that contains it.
Returns the updated heap together with the returned traits value. -/
def ApplyContextModifier (h : TraitHeap) (pt : PersonalityTraits) (context : String) :
    TraitHeap × PersonalityTraits :=
  match findModifier pt.responseModifiers context with
  | some modifier =>
      let modified := pt
      let h' := modifier.foldl
        (fun (hAcc : TraitHeap) kv =>
          if tmHasKey (hAcc.read modified.coreDimensions) kv.1 then
            hAcc.write modified.coreDimensions
              (tmSet (hAcc.read modified.coreDimensions) kv.1 kv.2)
          else if tmHasKey (hAcc.read modified.communicationStyle) kv.1 then
            hAcc.write modified.communicationStyle
              (tmSet (hAcc.read modified.communicationStyle) kv.1 kv.2)
          else if tmHasKey (hAcc.read modified.responsePatterns) kv.1 then
            hAcc.write modified.responsePatterns
              (tmSet (hAcc.read modified.responsePatterns) kv.1 kv.2)
          else hAcc) h
      (h', modified)
  | none => (h, pt)

/-- Category dispatch of `GetTraitValue`, for the categories in the model. -/
def GetTraitValue (h : TraitHeap) (pt : PersonalityTraits)
    (category traitName : String) : Option TraitValue :=
  if category = "core_dimensions" then tmGet (h.read pt.coreDimensions) traitName
  else if category = "communication_style" then
    tmGet (h.read pt.communicationStyle) traitName
  else if category = "response_patterns" then
    tmGet (h.read pt.responsePatterns) traitName
  else none

/-- Integer trait accessor (`GetIntTrait`): numeric values are truncated Go
style, anything else falls back to the default 5. -/
def GetIntTrait (h : TraitHeap) (pt : PersonalityTraits)
    (category traitName : String) : Int :=
  match GetTraitValue h pt category traitName with
  | some (TraitValue.num q) => goTrunc q
  | _ => 5

/-- Temperature derivation (`calculateTemperature` in `persona.go`). -/
def calculateTemperature (h : TraitHeap) (pt : PersonalityTraits) : ℚ :=
  let baseTemp : ℚ := 7/10
  let creativity : ℚ := (GetIntTrait h pt "core_dimensions" "creativity" : ℚ) / 10
  let analytical : ℚ := (GetIntTrait h pt "core_dimensions" "analytical" : ℚ) / 10
  let riskTolerance : ℚ := (GetIntTrait h pt "core_dimensions" "risk_tolerance" : ℚ) / 10
  let temperature :=
    baseTemp + creativity * (3/10) - analytical * (2/10) + riskTolerance * (1/10)
  if temperature < 1/10 then 1/10
  else if temperature > 1 then 1
  else temperature

/-! ### LLM request contract (`src/unnamed/part_002`, package `types`) -/

/-- An LLM request (`types.Request`; the `Context` map plays no role in the
verified paths and is omitted). -/
structure Request where
  prompt : String
  systemMsg : String
  temperature : ℚ
  maxTokens : Int
  model : String
deriving DecidableEq, Repr

/-- Token usage detail (`types.TokenUsage`). -/
structure TokenUsage where
  promptTokens : Int
  completionTokens : Int
  totalTokens : Int
deriving DecidableEq, Repr

/-- An LLM response (`types.Response`; `Duration` and `Metadata` are not
modelled — wall-clock time is outside the embedding). -/
structure Response where
  content : String
  tokensUsed : Int
  model : String
  finishReason : String
  usage : TokenUsage
deriving DecidableEq, Repr

/-- Model metadata (`types.ModelInfo`). -/
structure ModelInfo where
  name : String
  provider : String
  maxTokens : Int
  contextSize : Int
  costPer1K : ℚ
deriving DecidableEq, Repr

/-- Provider configuration (`types.Config`; `Extra` omitted). -/
structure Config where
  provider : String
  apiKey : String
  baseURL : String
  model : String
  temperature : ℚ
  maxTokens : Int
  timeout : Int
deriving DecidableEq, Repr

/-- Request validation (`types.ValidateRequest`): the four checks, in source
order, reporting the first failure. -/
def ValidateRequest (req : Request) : Option String :=
  if goTrimSpace req.prompt = "" then some "prompt cannot be empty"
  else if req.temperature < 0 ∨ req.temperature > 2 then
    some "temperature must be between 0 and 2"
  else if req.maxTokens ≤ 0 then some "max_tokens must be positive"
  else if req.maxTokens > 32768 then some "max_tokens too large"
  else none

/-! ### Anthropic provider (`src/unnamed/part_001`) -/

/-- Wire-format message (`AnthropicMessage`). -/
structure AnthropicMessage where
  role : String
  content : String
deriving DecidableEq, Repr

/-- Wire-format request (`AnthropicRequest`; `Stop` unused). -/
structure AnthropicRequest where
  model : String
  messages : List AnthropicMessage
  maxTokens : Int
  system : String
  stream : Bool
deriving DecidableEq, Repr

/-- Wire-format content block (`AnthropicContent`). -/
structure AnthropicContent where
  type : String
  text : String
deriving DecidableEq, Repr

/-- Wire-format usage (`AnthropicUsage`). -/
structure AnthropicUsage where
  inputTokens : Int
  outputTokens : Int
deriving DecidableEq, Repr

/-- Wire-format response (`AnthropicResponse`; metadata fields that the
conversion only copies into the response metadata map are omitted). -/
structure AnthropicResponse where
  model : String
  stopReason : String
  content : List AnthropicContent
  usage : AnthropicUsage
deriving DecidableEq, Repr

/-- Model table of `AnthropicProvider.GetModelInfo`. -/
def AnthropicGetModelInfo (cfg : Config) : ModelInfo :=
  let base : ModelInfo :=
    { name := cfg.model, provider := "anthropic", maxTokens := 0, contextSize := 0,
      costPer1K := 0 }
  if cfg.model = "claude-3-opus-20240229" then
    { base with maxTokens := 4096, contextSize := 200000, costPer1K := 15/1000 }
  else if cfg.model = "claude-3-sonnet-20240229" then
    { base with maxTokens := 4096, contextSize := 200000, costPer1K := 3/1000 }
  else if cfg.model = "claude-3-haiku-20240307" then
    { base with maxTokens := 4096, contextSize := 200000, costPer1K := 25/100000 }
  else if cfg.model = "claude-2.1" ∨ cfg.model = "claude-2.0" then
    { base with maxTokens := 4096, contextSize := 200000, costPer1K := 8/1000 }
  else if cfg.model = "claude-instant-1.2" then
    { base with maxTokens := 4096, contextSize := 100000, costPer1K := 8/10000 }
  else
    { base with maxTokens := 4096, contextSize := 200000, costPer1K := 3/1000 }

/-- Request translation (`buildAnthropicRequest`). -/
def buildAnthropicRequest (cfg : Config) (req : Request) : AnthropicRequest :=
  let messages := [({ role := "user", content := req.prompt } : AnthropicMessage)]
  let model := if req.model = "" then cfg.model else req.model
  let maxTokens0 := if req.maxTokens = 0 then cfg.maxTokens else req.maxTokens
  let maxTokens := if maxTokens0 = 0 then 4096 else maxTokens0
  { model := model, messages := messages, maxTokens := maxTokens,
    system := req.systemMsg, stream := false }

/-- Response translation (`convertResponse`): concatenate the text blocks and
total the token counts. -/
def convertResponse (aresp : AnthropicResponse) : Response :=
  let content := aresp.content.foldl
    (fun acc c => if c.type = "text" then acc ++ c.text else acc) ""
  let totalTokens := aresp.usage.inputTokens + aresp.usage.outputTokens
  { content := content
    tokensUsed := totalTokens
    model := aresp.model
    finishReason := aresp.stopReason
    usage := { promptTokens := aresp.usage.inputTokens
               completionTokens := aresp.usage.outputTokens
               totalTokens := totalTokens } }

/-- Result of one generate call, recording whether the HTTP layer was
reached. -/
structure GenerateTrace where
  result : Except String Response
  backendCalled : Bool
deriving Repr

/-- The generate path of `AnthropicProvider.GenerateResponse`: validate,
build the wire request, call the HTTP backend (abstracted as a function from
wire requests to either a transport/API error or a parsed wire response),
reject empty content, convert. -/
def AnthropicGenerateResponse
    (backend : AnthropicRequest → Except String AnthropicResponse)
    (cfg : Config) (req : Request) : GenerateTrace :=
  match ValidateRequest req with
  | some e => { result := Except.error ("invalid request: " ++ e), backendCalled := false }
  | none =>
      let areq := buildAnthropicRequest cfg req
      match backend areq with
      | Except.error e => { result := Except.error e, backendCalled := true }
      | Except.ok aresp =>
          if aresp.content.length = 0 then
            { result := Except.error "no content in response", backendCalled := true }
          else
            { result := Except.ok (convertResponse aresp), backendCalled := true }

/-! ### Retry wrapper (`RetryableProvider` in `src/internal/llm/llm.go`) -/

/-- Retry policy (`types.RetryConfig`).  `MaxRetries` is used only as a loop
bound, so it is taken as a natural number (the source's `int`; a negative
value would make the Go loop wrap a nil error, a path no caller exercises). -/
structure RetryConfig where
  maxRetries : Nat
  baseDelay : ℚ
  maxDelay : ℚ
  backoffFactor : ℚ
deriving Repr

/-- Retryability classification (`types.IsRetryableError`): substring checks
on the lowercased error text.  The `err == nil` early return cannot arise at
the wrapper's call site, where the error is known non-nil. -/
def IsRetryableError (err : String) : Bool :=
  let errStr := goToLower err
  (goContains errStr "timeout" || goContains errStr "connection" ||
    goContains errStr "network") ||
  (goContains errStr "rate limit" || goContains errStr "429") ||
  (goContains errStr "500" || goContains errStr "502" ||
    goContains errStr "503" || goContains errStr "504") ||
  (goContains errStr "temporarily unavailable" ||
    goContains errStr "service unavailable")

/-- Outcome of one underlying provider call: a response or an error text. -/
inductive ProviderResult where
  | ok (resp : Response)
  | fail (err : String)
deriving Repr, DecidableEq

/-- The error message built by the wrapper's final `fmt.Errorf`; `%w` wraps
the last underlying error. -/
def retryFailMsg (cfg : RetryConfig) (lastErr : Option String) : String :=
  "request failed after " ++ toString (cfg.maxRetries + 1) ++ " attempts: " ++
    (match lastErr with
     | some e => e
     | none => "<nil>")

/-- Observable outcome of `RetryableProvider.GenerateResponse`: the result,
the number of underlying calls made, and the backoff sleeps performed (in
nanoseconds, exact rationals standing for the source's float arithmetic). -/
structure RetryOutcome where
  response : Option Response
  errMsg : Option String
  calls : Nat
  delays : List ℚ
deriving Repr

/-- Loop of `RetryableProvider.GenerateResponse`.  `provider n` is the
outcome of the (n+1)-th underlying call.  For attempts after the first the
wrapper sleeps the current delay, then advances it by the backoff factor
capped at `maxDelay`; a success returns immediately; a retryable error
continues; a non-retryable error breaks out to the wrapping `fmt.Errorf`. -/
def retryAux (provider : Nat → ProviderResult) (cfg : RetryConfig) :
    Nat → Nat → ℚ → List ℚ → Option String → RetryOutcome
  | 0, attempt, _, delaysRev, lastErr =>
      { response := none, errMsg := some (retryFailMsg cfg lastErr),
        calls := attempt, delays := delaysRev.reverse }
  | fuel + 1, attempt, delay, delaysRev, lastErr =>
      let slept := if attempt = 0 then delaysRev else delay :: delaysRev
      let delay' :=
        if attempt = 0 then delay
        else
          let next := delay * cfg.backoffFactor
          if next > cfg.maxDelay then cfg.maxDelay else next
      match provider attempt with
      | ProviderResult.ok resp =>
          { response := some resp, errMsg := none, calls := attempt + 1,
            delays := slept.reverse }
      | ProviderResult.fail e =>
          if IsRetryableError e then
            retryAux provider cfg fuel (attempt + 1) delay' slept (some e)
          else
            { response := none, errMsg := some (retryFailMsg cfg (some e)),
              calls := attempt + 1, delays := slept.reverse }

/-- Retry wrapper (`RetryableProvider.GenerateResponse`): up to
`maxRetries + 1` attempts starting from the base delay. -/
def RetryableGenerateResponse (provider : Nat → ProviderResult)
    (cfg : RetryConfig) : RetryOutcome :=
  retryAux provider cfg (cfg.maxRetries + 1) 0 cfg.baseDelay [] none

/-! ### JSON import (`ImportMemory`)

`ImportMemory` is one line: `json.Unmarshal(data, mm.memory)`.  The decoder
is Go's standard library, outside this repository, so its documented
behavior is modelled here: `Unmarshal` first checks the input for JSON
syntax errors and returns without touching the target if it finds one; when
the input is syntactically valid, it decodes field by field into the
existing struct, and a value of the wrong type for its field is recorded as
the (first) returned error while decoding continues with the remaining
fields.  Unknown keys are ignored; absent fields keep their old values. -/

/-- A parsed JSON value. -/
inductive Json where
  | null
  | bool (b : Bool)
  | num (q : ℚ)
  | str (s : String)
  | arr (elems : List Json)
  | obj (fields : List (String × Json))

/-- Input to `ImportMemory`: either a syntactically invalid byte blob or the
value it parses to. -/
inductive JsonBlob where
  | malformed
  | value (j : Json)

/-- Shallow rendering of a decoded `interface{}` value, standing in for the
`fmt.Sprintf` view the scoring code takes of context values.  No verified
property depends on the exact rendering. -/
def jsonRender : Json → String
  | Json.null => "<nil>"
  | Json.bool b => if b then "true" else "false"
  | Json.num q => toString q.num
  | Json.str s => s
  | Json.arr _ => "[...]"
  | Json.obj _ => "map[...]"

/-- Decoder state: the struct being filled and the first saved error. -/
structure DecState (α : Type) where
  val : α
  err : Option String
deriving Repr

/-- Record a decode error, keeping the first (`d.saveError`). -/
def saveErr (st : DecState α) (e : String) : DecState α :=
  match st.err with
  | some _ => st
  | none => { st with err := some e }

/-- Decode one field of a `MemoryEntry` (by its JSON tag).  `time.Time`
accepts only a JSON string (an RFC 3339 instant); the parsed instant itself
is opaque to every verified property and is represented by 0. -/
def decodeEntryField (st : DecState MemoryEntry) (k : String) (v : Json) :
    DecState MemoryEntry :=
  if k = "id" then
    match v with
    | Json.str s => { st with val := { st.val with id := s } }
    | _ => saveErr st "cannot unmarshal value into field id of type string"
  else if k = "content" then
    match v with
    | Json.str s => { st with val := { st.val with content := s } }
    | _ => saveErr st "cannot unmarshal value into field content of type string"
  else if k = "timestamp" then
    match v with
    | Json.str _ => { st with val := { st.val with timestamp := 0 } }
    | _ => saveErr st "cannot unmarshal value into field timestamp of type Time"
  else if k = "tags" then
    match v with
    | Json.arr elems =>
        let dec := elems.foldl
          (fun (acc : List String × Option String) e =>
            match e with
            | Json.str s => (acc.1 ++ [s], acc.2)
            | _ => (acc.1 ++ [""],
                    match acc.2 with
                    | some old => some old
                    | none => some "cannot unmarshal element into string"))
          ([], none)
        let st1 := { st with val := { st.val with tags := dec.1 } }
        match dec.2 with
        | some e => saveErr st1 e
        | none => st1
    | _ => saveErr st "cannot unmarshal value into field tags of type []string"
  else if k = "weight" then
    match v with
    | Json.num q => { st with val := { st.val with weight := q } }
    | _ => saveErr st "cannot unmarshal value into field weight of type float64"
  else if k = "context" then
    match v with
    | Json.obj kvs =>
        { st with val := { st.val with context := kvs.map (fun kv => (kv.1, jsonRender kv.2)) } }
    | _ => saveErr st "cannot unmarshal value into field context of type map"
  else if k = "type" then
    match v with
    | Json.str s => { st with val := { st.val with type := s } }
    | _ => saveErr st "cannot unmarshal value into field type of type MemoryType"
  else if k = "decay" then
    match v with
    | Json.num q => { st with val := { st.val with decay := q } }
    | _ => saveErr st "cannot unmarshal value into field decay of type float64"
  else st

/-- Decode a `MemoryEntry` from JSON into a zero value, Go style. -/
def decodeEntry (j : Json) : MemoryEntry × Option String :=
  match j with
  | Json.obj fields =>
      let st := fields.foldl (fun st kv => decodeEntryField st kv.1 kv.2)
        ({ val := zeroMemoryEntry, err := none } : DecState MemoryEntry)
      (st.val, st.err)
  | _ => (zeroMemoryEntry, some "cannot unmarshal value into MemoryEntry")

/-- Decode a `[]MemoryEntry` field: a JSON array replaces the slice, each
element decoded into a zero value; element errors are saved and decoding
continues. -/
def decodeEntryList (elems : List Json) : List MemoryEntry × Option String :=
  elems.foldl
    (fun (acc : List MemoryEntry × Option String) e =>
      let d := decodeEntry e
      (acc.1 ++ [d.1],
       match acc.2 with
       | some old => some old
       | none => d.2))
    ([], none)

/-- Decode an `int` field: Go rejects non-integral numbers and non-numbers. -/
def decodeIntField (st : DecState Memory) (v : Json)
    (upd : Memory → Int → Memory) (fieldName : String) : DecState Memory :=
  match v with
  | Json.num q =>
      if q.den = 1 then { st with val := upd st.val q.num }
      else saveErr st ("cannot unmarshal non-integral number into field " ++ fieldName)
  | _ => saveErr st ("cannot unmarshal value into field " ++ fieldName ++ " of type int")

/-- Decode a `[]MemoryEntry` field with its error bookkeeping. -/
def decodeListField (st : DecState Memory) (v : Json)
    (upd : Memory → List MemoryEntry → Memory) (fieldName : String) : DecState Memory :=
  match v with
  | Json.arr elems =>
      let d := decodeEntryList elems
      let st1 := { st with val := upd st.val d.1 }
      match d.2 with
      | some e => saveErr st1 e
      | none => st1
  | _ => saveErr st ("cannot unmarshal value into field " ++ fieldName ++
      " of type []MemoryEntry")

/-- Decode one field of `Memory` by its JSON tag. -/
def decodeMemoryField (st : DecState Memory) (k : String) (v : Json) :
    DecState Memory :=
  if k = "persona_id" then
    match v with
    | Json.str s => { st with val := { st.val with personaID := s } }
    | _ => saveErr st "cannot unmarshal value into field persona_id of type string"
  else if k = "context" then
    match v with
    | Json.obj kvs =>
        { st with val := { st.val with context := kvs.map (fun kv => (kv.1, jsonRender kv.2)) } }
    | _ => saveErr st "cannot unmarshal value into field context of type map"
  else if k = "short_term" then
    decodeListField st v (fun m l => { m with shortTerm := l }) "short_term"
  else if k = "long_term" then
    decodeListField st v (fun m l => { m with longTerm := l }) "long_term"
  else if k = "working_memory" then
    decodeListField st v (fun m l => { m with workingMemory := l }) "working_memory"
  else if k = "short_term_limit" then
    decodeIntField st v (fun m n => { m with shortTermLimit := n }) "short_term_limit"
  else if k = "long_term_limit" then
    decodeIntField st v (fun m n => { m with longTermLimit := n }) "long_term_limit"
  else if k = "decay_rate" then
    match v with
    | Json.num q => { st with val := { st.val with decayRate := q } }
    | _ => saveErr st "cannot unmarshal value into field decay_rate of type float64"
  else st

/-- Memory import (`ImportMemory`), i.e. `json.Unmarshal(data, mm.memory)`
under the documented standard-library semantics described above. -/
def ImportMemory (mem : Memory) (b : JsonBlob) : Memory × Option String :=
  match b with
  | JsonBlob.malformed => (mem, some "invalid character in JSON input")
  | JsonBlob.value j =>
      match j with
      | Json.obj fields =>
          let st := fields.foldl (fun st kv => decodeMemoryField st kv.1 kv.2)
            ({ val := mem, err := none } : DecState Memory)
          (st.val, st.err)
      | _ => (mem, some "cannot unmarshal value into Go value of type Memory")

/-! ## Claim theorems -/

/-! ### C7: temperature formula and clamping -/

/-- The clamp written in the specification. -/
def clampSpec (x lo hi : ℚ) : ℚ := max lo (min x hi)

/-- The source's clamp-by-if-chain agrees with the specification's clamp. -/
theorem goClamp_eq (t : ℚ) :
    (if t < 1/10 then (1:ℚ)/10 else if t > 1 then 1 else t) = clampSpec t (1/10) 1 := by
  unfold clampSpec
  rw [max_def, min_def]
  split_ifs <;> linarith

/-- C7: for every trait vector (any heap and traits value, however
pathological), `calculateTemperature` equals
`clamp(0.7 + 0.03·creativity − 0.02·analytical + 0.01·risk_tolerance, 0.1, 1.0)`
and in particular always lies in `[0.1, 1.0]`. -/
theorem calculateTemperature_spec (h : TraitHeap) (pt : PersonalityTraits) :
    calculateTemperature h pt =
      clampSpec
        (7/10 + (3/100) * (GetIntTrait h pt "core_dimensions" "creativity" : ℚ)
          - (2/100) * (GetIntTrait h pt "core_dimensions" "analytical" : ℚ)
          + (1/100) * (GetIntTrait h pt "core_dimensions" "risk_tolerance" : ℚ))
        (1/10) 1 ∧
    1/10 ≤ calculateTemperature h pt ∧ calculateTemperature h pt ≤ 1 := by
  have hmain : calculateTemperature h pt =
      clampSpec
        (7/10 + (3/100) * (GetIntTrait h pt "core_dimensions" "creativity" : ℚ)
          - (2/100) * (GetIntTrait h pt "core_dimensions" "analytical" : ℚ)
          + (1/100) * (GetIntTrait h pt "core_dimensions" "risk_tolerance" : ℚ))
        (1/10) 1 := by
    have h1 : calculateTemperature h pt =
        clampSpec
          (7/10 + (GetIntTrait h pt "core_dimensions" "creativity" : ℚ)/10 * (3/10)
            - (GetIntTrait h pt "core_dimensions" "analytical" : ℚ)/10 * (2/10)
            + (GetIntTrait h pt "core_dimensions" "risk_tolerance" : ℚ)/10 * (1/10))
          (1/10) 1 := goClamp_eq _
    rw [h1]
    congr 1
    ring
  exact ⟨hmain, hmain ▸ le_max_left _ _,
    hmain ▸ max_le (by norm_num) (min_le_right _ _)⟩

/-! ### C1: `ApplyContextModifier` and mutation of its input -/

/-- Concrete heap for the C1 evaluation: the input persona's three category
maps; core dimensions holds `creativity = 5`. -/
def c1Heap : TraitHeap :=
  ⟨[[("creativity", TraitValue.num 5)], [("formality", TraitValue.str "casual")], []]⟩

/-- Concrete traits for the C1 evaluation, with an `excited` modifier that
overrides `creativity` to 9. -/
def c1Traits : PersonalityTraits :=
  { coreDimensions := 0
    communicationStyle := 1
    responsePatterns := 2
    responseModifiers := [("excited", [("creativity", TraitValue.num 9)])] }

/-- C1: evaluation at the failing input.  Before the call the input trait
vector's core-dimensions map reads `creativity = 5`; `ApplyContextModifier`
with context `excited` overwrites it to 9 **through the shared map
reference**, so afterwards the input's own map reads `creativity = 9`: the
input is mutated, contradicting the claim (and the source's own comment
"Create a copy of traits with modifications").  The returned "copy" carries
the very same references as the input.  Repeating the application with the
same context does yield the same state (that half of the claim holds). -/
theorem applyContextModifier_mutates_input :
    c1Heap.read c1Traits.coreDimensions = [("creativity", TraitValue.num 5)] ∧
    (ApplyContextModifier c1Heap c1Traits "excited").1.read c1Traits.coreDimensions
      = [("creativity", TraitValue.num 9)] ∧
    (ApplyContextModifier c1Heap c1Traits "excited").2 = c1Traits ∧
    ApplyContextModifier (ApplyContextModifier c1Heap c1Traits "excited").1
        (ApplyContextModifier c1Heap c1Traits "excited").2 "excited"
      = ApplyContextModifier c1Heap c1Traits "excited" := by
  decide

/-! ### C5: request validation in the generate path -/

/-- C5 (amended): the per-request validation performed by the generate call
consists exactly of the prompt / temperature / absolute-max-tokens checks;
the backend is called iff they all pass, and a validation failure is
returned as an error without any backend call.  (No per-request comparison
against `model_info.max_tokens` exists; that comparison is made against the
configured `max_tokens` in `ValidateConfig` only, outside the request
path.) -/
theorem anthropic_validates_before_call
    (backend : AnthropicRequest → Except String AnthropicResponse)
    (cfg : Config) (req : Request) :
    (ValidateRequest req = none ↔
      (¬ goTrimSpace req.prompt = "" ∧ 0 ≤ req.temperature ∧ req.temperature ≤ 2 ∧
        0 < req.maxTokens ∧ req.maxTokens ≤ 32768)) ∧
    ((AnthropicGenerateResponse backend cfg req).backendCalled = true ↔
      ValidateRequest req = none) ∧
    (∀ e, ValidateRequest req = some e →
      (AnthropicGenerateResponse backend cfg req).backendCalled = false ∧
      (AnthropicGenerateResponse backend cfg req).result =
        Except.error ("invalid request: " ++ e)) := by
  refine ⟨?_, ?_, ?_⟩
  · constructor
    · intro hnone
      unfold ValidateRequest at hnone
      split_ifs at hnone with h1 h2 h3 h4
      push_neg at h2
      exact ⟨h1, h2.1, h2.2, by omega, by omega⟩
    · rintro ⟨hp, ht0, ht2, hm0, hm32⟩
      have hTemp : ¬ (req.temperature < 0 ∨ req.temperature > 2) := by
        rintro (h | h) <;> linarith
      have hM0 : ¬ (req.maxTokens ≤ 0) := by omega
      have hM32 : ¬ (req.maxTokens > 32768) := by omega
      unfold ValidateRequest
      rw [if_neg hp, if_neg hTemp, if_neg hM0, if_neg hM32]
  · unfold AnthropicGenerateResponse
    cases hv : ValidateRequest req with
    | some e => simp
    | none =>
        simp only [eq_self_iff_true, iff_true]
        cases hb : backend (buildAnthropicRequest cfg req) with
        | error e => rfl
        | ok aresp => by_cases hc : aresp.content.length = 0 <;> simp [hc]
  · intro e he
    unfold AnthropicGenerateResponse
    rw [he]
    exact ⟨rfl, rfl⟩

/-- Witness request for the C5 amended theorem: a blank prompt. -/
def c5EmptyReq : Request :=
  { prompt := "  ", systemMsg := "", temperature := 1, maxTokens := 100, model := "" }

/-- A stub backend returning a fixed single-block response. -/
def c5Backend : AnthropicRequest → Except String AnthropicResponse := fun _ =>
  Except.ok
    { model := "claude-3-sonnet-20240229"
      stopReason := "end_turn"
      content := [{ type := "text", text := "ok" }]
      usage := { inputTokens := 1, outputTokens := 1 } }

/-- Provider configuration used in the C5 evaluation. -/
def c5Cfg : Config :=
  { provider := "anthropic", apiKey := "k", baseURL := "https://api.anthropic.com"
    model := "claude-3-sonnet-20240229", temperature := 7/10, maxTokens := 1000
    timeout := 60 }

unseal Rat.add Rat.mul Rat.sub Rat.inv in
/-- Witness for the C5 amended theorem: the blank-prompt request is rejected
with no backend call. -/
theorem anthropic_validates_before_call_witness :
    (AnthropicGenerateResponse c5Backend c5Cfg c5EmptyReq).backendCalled = false ∧
    (AnthropicGenerateResponse c5Backend c5Cfg c5EmptyReq).result =
      Except.error ("invalid request: " ++ "prompt cannot be empty") :=
  (anthropic_validates_before_call c5Backend c5Cfg c5EmptyReq).2.2
    "prompt cannot be empty" (by decide)

/-- A request inside the absolute bounds but over the configured model's
limit of 4096 output tokens. -/
def c5BigReq : Request :=
  { prompt := "Hello", systemMsg := "", temperature := 7/10, maxTokens := 8192, model := "" }

unseal Rat.add Rat.mul Rat.sub Rat.inv in
/-- C5 counterexample: `max_tokens = 8192` exceeds
`model_info.max_tokens = 4096` of the configured model, yet validation
passes and the backend is called — the claimed fourth precondition is not
checked anywhere in the generate path. -/
theorem anthropic_no_model_limit_check :
    (AnthropicGetModelInfo c5Cfg).maxTokens = 4096 ∧
    c5BigReq.maxTokens = 8192 ∧
    ValidateRequest c5BigReq = none ∧
    (AnthropicGenerateResponse c5Backend c5Cfg c5BigReq).backendCalled = true := by
  decide

/-! ### C3: `ImportMemory` on blobs that fail to parse -/

/-- A well-formed JSON blob whose fields mismatch the `Memory` struct: the
limit field holds a string. -/
def c3Blob : JsonBlob :=
  JsonBlob.value (Json.obj
    [("short_term_limit", Json.num 7), ("long_term_limit", Json.str "bad")])

unseal Rat.add Rat.mul Rat.sub Rat.inv in
/-- C3 counterexample: importing `c3Blob` into a fresh memory returns a
decode error — the blob "does not parse as a valid memory" — yet the memory
is modified on that error path: `short_term_limit` becomes 7 (it was 50). -/
theorem importMemory_error_mutates :
    (ImportMemory (NewMemory "p") c3Blob).2.isSome = true ∧
    (ImportMemory (NewMemory "p") c3Blob).1.shortTermLimit = 7 ∧
    (NewMemory "p").shortTermLimit = 50 := by
  decide

/-- A second mismatching blob: the error is saved at `decay_rate` and
decoding still continues into `persona_id`. -/
def c3Blob2 : JsonBlob :=
  JsonBlob.value (Json.obj
    [("decay_rate", Json.str "x"), ("persona_id", Json.str "q")])

unseal Rat.add Rat.mul Rat.sub Rat.inv in
/-- C3 (amended): a syntactically malformed blob leaves the memory
unchanged and returns an error; a syntactically valid blob that fails to
decode as a memory also returns an error but need not leave the memory
unchanged — decoding continues past the saved type error, as the concrete
run shows. -/
theorem importMemory_amended :
    (∀ mem : Memory,
      (ImportMemory mem JsonBlob.malformed).1 = mem ∧
      (ImportMemory mem JsonBlob.malformed).2.isSome = true) ∧
    ((ImportMemory (NewMemory "p") c3Blob2).2.isSome = true ∧
      (ImportMemory (NewMemory "p") c3Blob2).1.personaID = "q" ∧
      (NewMemory "p").personaID = "p") := by
  refine ⟨fun mem => ⟨rfl, rfl⟩, ?_⟩
  decide

/-! ### C8: score monotone in decay -/

/-- A fold whose step never decreases the accumulator is bounded below by
its initial value. -/
theorem foldl_le_of_step_le {α : Type} (f : ℚ → α → ℚ)
    (hf : ∀ acc x, acc ≤ f acc x) :
    ∀ (l : List α) (init : ℚ), init ≤ l.foldl f init
  | [], _ => le_refl _
  | x :: l, init => le_trans (hf init x) (foldl_le_of_step_le f hf l (f init x))

/-- A conditional increment never decreases its accumulator. -/
theorem step_add_le (acc : ℚ) (c : Prop) [Decidable c] (k : ℚ) (hk : 0 ≤ k) :
    acc ≤ if c then acc + k else acc := by
  split <;> linarith

/-- The additive score base is nonnegative: every loop only adds. -/
theorem scoreBase_nonneg (memory : MemoryEntry) (promptLower : String)
    (promptWords : List String) : 0 ≤ scoreBase memory promptLower promptWords := by
  unfold scoreBase
  refine le_trans ?_ (foldl_le_of_step_le _
    (fun acc kv => step_add_le _ _ _ (by norm_num)) memory.context _)
  refine le_trans ?_ (foldl_le_of_step_le _
    (fun acc tag => foldl_le_of_step_le _
      (fun acc' w => step_add_le _ _ _ (by norm_num)) promptWords acc)
    memory.tags _)
  exact foldl_le_of_step_le _ (fun acc w => step_add_le _ _ _ (by norm_num))
    promptWords 0

/-- `scoreBase` ignores the decay field. -/
theorem scoreBase_set_decay (e : MemoryEntry) (d2 : ℚ) (promptLower : String)
    (promptWords : List String) :
    scoreBase { e with decay := d2 } promptLower promptWords =
      scoreBase e promptLower promptWords := rfl

/-- C8: the relevance score is monotone non-decreasing in the entry's decay
field, for entries with nonnegative weight (the data model keeps
`weight ∈ [0,1]`): raising decay cannot lower the score. -/
theorem relevanceScore_monotone_decay (now : Int) (e : MemoryEntry) (d2 : ℚ)
    (promptLower : String) (promptWords : List String)
    (hw : 0 ≤ e.weight) (hd : e.decay ≤ d2) :
    calculateRelevanceScore now e promptLower promptWords ≤
      calculateRelevanceScore now { e with decay := d2 } promptLower promptWords := by
  have hB : 0 ≤ scoreBase e promptLower promptWords :=
    scoreBase_nonneg e promptLower promptWords
  have h45 : scoreBase e promptLower promptWords * e.decay * e.weight ≤
      scoreBase e promptLower promptWords * d2 * e.weight :=
    mul_le_mul_of_nonneg_right (mul_le_mul_of_nonneg_left hd hB) hw
  simp only [calculateRelevanceScore, scoreBase_set_decay]
  split_ifs <;> linarith [h45]

/-- Concrete entry for the C8 witness. -/
def c8Entry : MemoryEntry :=
  { id := "p_1", content := "a product idea", timestamp := 0,
    tags := ["idea"], weight := 1/2, context := [], type := "interaction",
    decay := 1/2 }

unseal Rat.add Rat.mul Rat.sub Rat.inv in
/-- Witness for C8 at a concrete entry, raising decay from 1/2 to 1. -/
theorem relevanceScore_monotone_decay_witness :
    calculateRelevanceScore 0 c8Entry "idea" ["idea"] ≤
      calculateRelevanceScore 0 { c8Entry with decay := 1 } "idea" ["idea"] :=
  relevanceScore_monotone_decay 0 c8Entry 1 "idea" ["idea"] (by decide) (by decide)

/-! ### C10: `RetrieveRelevant` bounds, threshold and ordering -/

/-- Every pair accumulated by the scored-candidates fold carries the score
of its entry, above the 0.1 floor. -/
theorem scored_fold_mem (f : MemoryEntry → ℚ) :
    ∀ (l : List MemoryEntry) (acc : List (MemoryEntry × ℚ)),
      (∀ p ∈ acc, p.2 = f p.1 ∧ 1/10 < p.2) →
      ∀ p ∈ l.foldl
          (fun acc m =>
            let score := f m
            if score > 1/10 then acc ++ [(m, score)] else acc) acc,
        p.2 = f p.1 ∧ 1/10 < p.2 := by
  intro l
  induction l with
  | nil => exact fun acc hacc => hacc
  | cons m l ih =>
      intro acc hacc
      simp only [List.foldl_cons]
      by_cases hm : f m > 1/10
      · rw [if_pos hm]
        refine ih _ ?_
        intro p hp
        rcases List.mem_append.mp hp with h | h
        · exact hacc p h
        · rcases List.mem_singleton.mp h with rfl
          exact ⟨rfl, hm⟩
      · rw [if_neg hm]
        exact ih _ hacc

/-- Membership form of `scored_fold_mem` for `scoredMemories`. -/
theorem mem_scoredMemories (now : Int) (mem : Memory) (promptLower : String)
    (promptWords : List String) :
    ∀ p ∈ scoredMemories now mem promptLower promptWords,
      p.2 = calculateRelevanceScore now p.1 promptLower promptWords ∧ 1/10 < p.2 := by
  intro p hp
  exact scored_fold_mem (fun m => calculateRelevanceScore now m promptLower promptWords)
    (mem.workingMemory ++ mem.shortTerm ++ mem.longTerm) [] (by intro q hq; cases hq) p hp

/-- C10: for every memory state, prompt and `limit ≥ 0`, `RetrieveRelevant`
returns at most `limit` entries, every returned entry scores strictly above
0.1 against the prompt, and the returned list is ordered by non-increasing
relevance score. -/
theorem retrieveRelevant_spec (now : Int) (mem : Memory) (prompt : String)
    (limit : Int) (hlim : 0 ≤ limit) :
    ((RetrieveRelevant now mem prompt limit).length : Int) ≤ limit ∧
    (∀ e ∈ RetrieveRelevant now mem prompt limit,
      1/10 < calculateRelevanceScore now e (goToLower prompt)
        (goFields (goToLower prompt))) ∧
    (RetrieveRelevant now mem prompt limit).Pairwise
      (fun a b =>
        calculateRelevanceScore now b (goToLower prompt) (goFields (goToLower prompt)) ≤
        calculateRelevanceScore now a (goToLower prompt) (goFields (goToLower prompt))) := by
  have hmemS := mem_scoredMemories now mem (goToLower prompt) (goFields (goToLower prompt))
  refine ⟨?_, ?_, ?_⟩
  · simp only [RetrieveRelevant, List.length_map, List.length_take,
      List.length_insertionSort]
    split_ifs with h <;> omega
  · intro e he
    simp only [RetrieveRelevant] at he
    rcases List.mem_map.mp he with ⟨p, hp, rfl⟩
    have hp1 : p ∈ List.insertionSort scoredGE
        (scoredMemories now mem (goToLower prompt) (goFields (goToLower prompt))) :=
      List.mem_of_mem_take hp
    have hp2 := (List.mem_insertionSort scoredGE).mp hp1
    rcases hmemS p hp2 with ⟨hEq, hGt⟩
    rw [← hEq]
    exact hGt
  · simp only [RetrieveRelevant]
    rw [List.pairwise_map]
    refine List.Pairwise.imp_of_mem ?_
      (List.Pairwise.sublist (List.take_sublist _ _)
        (List.sorted_insertionSort scoredGE _))
    intro p q hpmem hqmem hpq
    have hp2 := (List.mem_insertionSort scoredGE).mp (List.mem_of_mem_take hpmem)
    have hq2 := (List.mem_insertionSort scoredGE).mp (List.mem_of_mem_take hqmem)
    rcases hmemS p hp2 with ⟨hpEq, -⟩
    rcases hmemS q hq2 with ⟨hqEq, -⟩
    rw [← hpEq, ← hqEq]
    exact hpq

/-- Concrete memory for the C10 witness: one short-term entry scoring above
the floor. -/
def c10Mem : Memory :=
  { NewMemory "p" with shortTerm := [c8Entry] }

unseal Rat.add Rat.mul Rat.sub Rat.inv in
/-- Witness for C10 at a concrete memory, prompt and limit. -/
theorem retrieveRelevant_spec_witness :
    ((RetrieveRelevant 0 c10Mem "idea" 2).length : Int) ≤ 2 ∧
    1/10 < calculateRelevanceScore 0
      ((RetrieveRelevant 0 c10Mem "idea" 2).headD zeroMemoryEntry)
      (goToLower "idea") (goFields (goToLower "idea")) :=
  ⟨(retrieveRelevant_spec 0 c10Mem "idea" 2 (by decide)).1,
   (retrieveRelevant_spec 0 c10Mem "idea" 2 (by decide)).2.1
     ((RetrieveRelevant 0 c10Mem "idea" 2).headD zeroMemoryEntry) (by decide)⟩

/-! ### C6: retry wrapper behavior -/

/-- The delay the wrapper sleeps before the (n+1)-th retry:
`base_delay · backoff_factor^n` capped at `max_delay`. -/
def retryDelay (cfg : RetryConfig) (n : Nat) : ℚ :=
  min (cfg.baseDelay * cfg.backoffFactor ^ n) cfg.maxDelay

/-- One backoff step of the wrapper takes each capped delay to the next. -/
theorem retryDelay_step (cfg : RetryConfig) (hb : 0 ≤ cfg.baseDelay)
    (hm : 0 ≤ cfg.maxDelay) (hf : 1 ≤ cfg.backoffFactor) (n : Nat) :
    (if retryDelay cfg n * cfg.backoffFactor > cfg.maxDelay then cfg.maxDelay
     else retryDelay cfg n * cfg.backoffFactor) = retryDelay cfg (n + 1) := by
  unfold retryDelay
  have hpn : (0:ℚ) ≤ cfg.backoffFactor ^ n := pow_nonneg (le_trans zero_le_one hf) n
  rcases le_total (cfg.baseDelay * cfg.backoffFactor ^ n) cfg.maxDelay with hle | hge
  · rw [min_eq_left hle]
    have hpow : cfg.baseDelay * cfg.backoffFactor ^ n * cfg.backoffFactor
        = cfg.baseDelay * cfg.backoffFactor ^ (n + 1) := by ring
    rw [hpow]
    rcases le_or_lt (cfg.baseDelay * cfg.backoffFactor ^ (n+1)) cfg.maxDelay with h2 | h2
    · rw [if_neg (not_lt.mpr h2), min_eq_left h2]
    · rw [if_pos h2, min_eq_right (le_of_lt h2)]
  · rw [min_eq_right hge]
    have hgrow : cfg.maxDelay ≤ cfg.maxDelay * cfg.backoffFactor := by nlinarith
    have hnext : cfg.maxDelay ≤ cfg.baseDelay * cfg.backoffFactor ^ (n + 1) := by
      have hstep : cfg.baseDelay * cfg.backoffFactor ^ n
          ≤ cfg.baseDelay * cfg.backoffFactor ^ (n + 1) := by
        have : cfg.baseDelay * cfg.backoffFactor ^ n * 1
            ≤ cfg.baseDelay * cfg.backoffFactor ^ n * cfg.backoffFactor := by
          nlinarith [mul_nonneg hb hpn]
        calc cfg.baseDelay * cfg.backoffFactor ^ n
            = cfg.baseDelay * cfg.backoffFactor ^ n * 1 := by ring
          _ ≤ cfg.baseDelay * cfg.backoffFactor ^ n * cfg.backoffFactor := this
          _ = cfg.baseDelay * cfg.backoffFactor ^ (n + 1) := by ring
      linarith
    rw [min_eq_right hnext]
    rcases lt_or_le cfg.maxDelay (cfg.maxDelay * cfg.backoffFactor) with h2 | h2
    · rw [if_pos h2]
    · rw [if_neg (not_lt.mpr h2)]
      linarith

/-- Unfolding the first entry of a capped-delay range. -/
theorem retryDelay_range (cfg : RetryConfig) (k a : Nat) :
    (List.range (k + 1)).map (fun i => retryDelay cfg (a + i)) =
      retryDelay cfg a :: (List.range k).map (fun i => retryDelay cfg (a + 1 + i)) := by
  rw [List.range_succ_eq_map]
  simp only [List.map_cons, Nat.add_zero, List.map_map]
  congr 1
  refine List.map_congr_left ?_
  intro i _
  simp only [Function.comp_apply]
  congr 1
  omega

/-- Retryable failures before a success, seen from an in-progress loop state
with `attempt = a + 1` and the correct current delay: the wrapper returns
that success, having made the remaining calls and slept the capped
exponential delays. -/
theorem retryAux_ok_aux (provider : Nat → ProviderResult) (cfg : RetryConfig)
    (resp : Response) (hb : 0 ≤ cfg.baseDelay) (hm : 0 ≤ cfg.maxDelay)
    (hf : 1 ≤ cfg.backoffFactor) :
    ∀ (k a fuel : Nat) (delaysRev : List ℚ) (lastErr : Option String),
      k < fuel →
      (∀ i, i < k → ∃ e, provider (a + 1 + i) = ProviderResult.fail e ∧
        IsRetryableError e = true) →
      provider (a + 1 + k) = ProviderResult.ok resp →
      retryAux provider cfg fuel (a + 1) (retryDelay cfg a) delaysRev lastErr =
        { response := some resp, errMsg := none, calls := a + 1 + k + 1,
          delays := delaysRev.reverse ++
            (List.range (k + 1)).map (fun i => retryDelay cfg (a + i)) } := by
  intro k
  induction k with
  | zero =>
      intro a fuel delaysRev lastErr hfuel hfail hok
      match fuel, hfuel with
      | fuel + 1, _ =>
        rw [show a + 1 + 0 = a + 1 from rfl] at hok
        rw [retryAux]
        have hne : ¬(a + 1 = 0) := Nat.succ_ne_zero a
        simp only [if_neg hne, hok, List.range_succ, List.range_zero, List.map_cons,
          List.map_nil, List.nil_append, List.map_append, List.reverse_cons,
          Nat.add_zero]
  | succ k ih =>
      intro a fuel delaysRev lastErr hfuel hfail hok
      match fuel, hfuel with
      | fuel + 1, hfuel =>
        rw [retryAux]
        have hne : ¬(a + 1 = 0) := Nat.succ_ne_zero a
        rcases hfail 0 (Nat.succ_pos k) with ⟨e0, he0, hre0⟩
        rw [show a + 1 + 0 = a + 1 from rfl] at he0
        simp only [if_neg hne, he0, hre0, if_true]
        rw [retryDelay_step cfg hb hm hf a]
        have hrec := ih (a + 1) fuel (retryDelay cfg a :: delaysRev) (some e0)
          (Nat.lt_of_succ_lt_succ hfuel)
          (fun i hi => by
            rcases hfail (i + 1) (Nat.succ_lt_succ hi) with ⟨e', he', hre'⟩
            exact ⟨e', by rw [show a + 1 + 1 + i = a + 1 + (i + 1) by omega]; exact he', hre'⟩)
          (by rw [show a + 1 + 1 + k = a + 1 + (k + 1) by omega]; exact hok)
        rw [hrec]
        congr 1
        · omega
        · rw [List.reverse_cons, List.append_assoc]
          conv_rhs => rw [retryDelay_range]
          rfl

/-- A non-retryable failure, seen from an in-progress loop state: the
wrapper stops there, wrapping that error, with no further calls. -/
theorem retryAux_fail_aux (provider : Nat → ProviderResult) (cfg : RetryConfig)
    (e : String) (hre : IsRetryableError e = false) :
    ∀ (j a fuel : Nat) (delay : ℚ) (delaysRev : List ℚ) (lastErr : Option String),
      j < fuel →
      (∀ i, i < j → ∃ e', provider (a + 1 + i) = ProviderResult.fail e' ∧
        IsRetryableError e' = true) →
      provider (a + 1 + j) = ProviderResult.fail e →
      (retryAux provider cfg fuel (a + 1) delay delaysRev lastErr).response = none ∧
      (retryAux provider cfg fuel (a + 1) delay delaysRev lastErr).errMsg =
        some (retryFailMsg cfg (some e)) ∧
      (retryAux provider cfg fuel (a + 1) delay delaysRev lastErr).calls = a + 1 + j + 1 := by
  intro j
  induction j with
  | zero =>
      intro a fuel delay delaysRev lastErr hfuel hfail hj
      match fuel, hfuel with
      | fuel + 1, _ =>
        rw [show a + 1 + 0 = a + 1 from rfl] at hj
        rw [retryAux]
        have hne : ¬(a + 1 = 0) := Nat.succ_ne_zero a
        simp [if_neg hne, hj, hre]
  | succ j ih =>
      intro a fuel delay delaysRev lastErr hfuel hfail hj
      match fuel, hfuel with
      | fuel + 1, hfuel =>
        rw [retryAux]
        have hne : ¬(a + 1 = 0) := Nat.succ_ne_zero a
        rcases hfail 0 (Nat.succ_pos j) with ⟨e0, he0, hre0⟩
        rw [show a + 1 + 0 = a + 1 from rfl] at he0
        simp only [if_neg hne, he0, hre0, if_true]
        have hrec := ih (a + 1) fuel
          (if delay * cfg.backoffFactor > cfg.maxDelay then cfg.maxDelay
           else delay * cfg.backoffFactor)
          (delay :: delaysRev) (some e0)
          (Nat.lt_of_succ_lt_succ hfuel)
          (fun i hi => by
            rcases hfail (i + 1) (Nat.succ_lt_succ hi) with ⟨e', he', hre'⟩
            exact ⟨e', by rw [show a + 1 + 1 + i = a + 1 + (i + 1) by omega]; exact he', hre'⟩)
          (by rw [show a + 1 + 1 + j = a + 1 + (j + 1) by omega]; exact hj)
        refine ⟨hrec.1, hrec.2.1, ?_⟩
        rw [hrec.2.2]
        omega

/-- C6: behavior of the retry wrapper over any wrapped backend, for a sane
policy (`0 ≤ base_delay ≤ max_delay`, `backoff_factor ≥ 1`).  First part:
`k ≤ max_retries` retryable failures followed by a success yield exactly
that one success, after exactly `k + 1` underlying calls, with sleeps
`base_delay · backoff_factor^(n-1)` capped at `max_delay` for the n-th
retry.  Second part: a non-retryable error at attempt `j` is returned
(wrapped by the final `fmt.Errorf`) immediately, after exactly `j + 1`
underlying calls — no further attempts. -/
theorem retry_wrapper_behavior (provider : Nat → ProviderResult)
    (cfg : RetryConfig) (resp : Response) (e : String) (k j : Nat)
    (hb : 0 ≤ cfg.baseDelay) (hbm : cfg.baseDelay ≤ cfg.maxDelay)
    (hf : 1 ≤ cfg.backoffFactor) :
    ((k ≤ cfg.maxRetries) →
     (∀ i, i < k → ∃ e', provider i = ProviderResult.fail e' ∧
        IsRetryableError e' = true) →
     provider k = ProviderResult.ok resp →
     RetryableGenerateResponse provider cfg =
       { response := some resp, errMsg := none, calls := k + 1,
         delays := (List.range k).map (fun n => retryDelay cfg n) }) ∧
    ((j ≤ cfg.maxRetries) →
     (∀ i, i < j → ∃ e', provider i = ProviderResult.fail e' ∧
        IsRetryableError e' = true) →
     provider j = ProviderResult.fail e →
     IsRetryableError e = false →
     (RetryableGenerateResponse provider cfg).response = none ∧
     (RetryableGenerateResponse provider cfg).errMsg =
       some (retryFailMsg cfg (some e)) ∧
     (RetryableGenerateResponse provider cfg).calls = j + 1) := by
  have hm : (0:ℚ) ≤ cfg.maxDelay := le_trans hb hbm
  have hbase : cfg.baseDelay = retryDelay cfg 0 := by
    unfold retryDelay
    rw [pow_zero, mul_one, min_eq_left hbm]
  constructor
  · intro hk hfail hok
    unfold RetryableGenerateResponse
    rw [retryAux]
    cases k with
    | zero =>
        simp only [if_pos rfl, hok, List.range_zero, List.map_nil]
        rfl
    | succ k =>
        rcases hfail 0 (Nat.succ_pos k) with ⟨e0, he0, hre0⟩
        simp only [if_pos rfl, he0, hre0, if_true]
        rw [hbase]
        have hrec := retryAux_ok_aux provider cfg resp hb hm hf k 0 cfg.maxRetries []
          (some e0) (by omega)
          (fun i hi => by
            rcases hfail (i + 1) (Nat.succ_lt_succ hi) with ⟨e', he', hre'⟩
            exact ⟨e', by rw [show 0 + 1 + i = i + 1 by omega]; exact he', hre'⟩)
          (by rw [show 0 + 1 + k = k + 1 by omega]; exact hok)
        rw [hrec]
        congr 1
        · omega
        · rw [List.reverse_nil, List.nil_append]
          refine List.map_congr_left ?_
          intro i _
          congr 1
          omega
  · intro hj hfail hje hre
    unfold RetryableGenerateResponse
    rw [retryAux]
    cases j with
    | zero =>
        simp [hje, hre]
    | succ j =>
        rcases hfail 0 (Nat.succ_pos j) with ⟨e0, he0, hre0⟩
        simp only [if_pos rfl, he0, hre0, if_true]
        have hrec := retryAux_fail_aux provider cfg e hre j 0 cfg.maxRetries
          cfg.baseDelay [] (some e0) (by omega)
          (fun i hi => by
            rcases hfail (i + 1) (Nat.succ_lt_succ hi) with ⟨e', he', hre'⟩
            exact ⟨e', by rw [show 0 + 1 + i = i + 1 by omega]; exact he', hre'⟩)
          (by rw [show 0 + 1 + j = j + 1 by omega]; exact hje)
        refine ⟨hrec.1, hrec.2.1, ?_⟩
        rw [hrec.2.2]
        omega

/-- The default retry policy of `DefaultRetryConfig`: 3 retries, 1s base,
30s cap, factor 2 (delays in nanoseconds). -/
def c6Cfg : RetryConfig :=
  { maxRetries := 3, baseDelay := 1000000000, maxDelay := 30000000000,
    backoffFactor := 2 }

/-- A fixed successful response for the C6 witness. -/
def c6Resp : Response :=
  { content := "ok", tokensUsed := 2, model := "m", finishReason := "stop",
    usage := { promptTokens := 1, completionTokens := 1, totalTokens := 2 } }

/-- A backend failing twice with HTTP 500 and then succeeding. -/
def c6Provider : Nat → ProviderResult := fun n =>
  if n < 2 then ProviderResult.fail "HTTP 500: internal server error"
  else ProviderResult.ok c6Resp

/-- A backend failing immediately with a non-retryable 401. -/
def c6ProviderAuth : Nat → ProviderResult := fun _ =>
  ProviderResult.fail "HTTP 401: invalid api key"

unseal Rat.add Rat.mul Rat.sub Rat.inv in
/-- Witness for C6: two 500-failures then success under the default policy
gives one success after 3 calls; an immediate 401 is returned after a
single call. -/
theorem retry_wrapper_behavior_witness :
    (RetryableGenerateResponse c6Provider c6Cfg =
      { response := some c6Resp, errMsg := none, calls := 3,
        delays := (List.range 2).map (fun n => retryDelay c6Cfg n) }) ∧
    ((RetryableGenerateResponse c6ProviderAuth c6Cfg).response = none ∧
     (RetryableGenerateResponse c6ProviderAuth c6Cfg).errMsg =
       some (retryFailMsg c6Cfg (some "HTTP 401: invalid api key")) ∧
     (RetryableGenerateResponse c6ProviderAuth c6Cfg).calls = 1) :=
  ⟨(retry_wrapper_behavior c6Provider c6Cfg c6Resp "" 2 0 (by decide) (by decide)
      (by decide)).1 (by decide)
      (fun i hi => ⟨"HTTP 500: internal server error", by
        interval_cases i <;> exact ⟨by decide, by decide⟩⟩)
      (by decide),
   (retry_wrapper_behavior c6ProviderAuth c6Cfg c6Resp "HTTP 401: invalid api key"
      0 0 (by decide) (by decide) (by decide)).2 (by decide)
      (fun i hi => absurd hi (by omega)) (by decide) (by decide)⟩

/-! ### Decay-pass lemmas (for C2, C4, C9) -/

/-- Taking up to a set position ignores the write. -/
theorem take_set_self {α : Type} : ∀ (l : List α) (i : Nat) (a : α),
    (l.set i a).take i = l.take i
  | [], _, _ => by simp
  | _ :: _, 0, _ => rfl
  | x :: l, i + 1, a => by
      simp only [List.set_cons_succ, List.take_succ_cons]
      rw [take_set_self l i a]

/-- A completing run of the decay loop never lengthens the list. -/
theorem applyDecayLoop_length_le (now : Int) (rate : ℚ) :
    ∀ (fuel i : Nat) (lt res : List MemoryEntry),
      applyDecayLoop now rate fuel i lt = some res → res.length ≤ lt.length := by
  intro fuel
  induction fuel with
  | zero =>
      intro i lt res h
      rw [applyDecayLoop] at h
      cases h
      exact le_refl _
  | succ fuel ih =>
      intro i lt res h
      rw [applyDecayLoop] at h
      dsimp only at h
      split_ifs at h with hi hd
      · have hlen := ih (i + 1) _ res h
        refine le_trans hlen (le_trans (List.length_eraseIdx_le _ _) ?_)
        simp
      · have hlen := ih (i + 1) _ res h
        simpa using hlen

/-- Once the loop has erased an entry before the final index, the remaining
iterations run off the end of the shortened list: the pass faults. -/
theorem applyDecayLoop_none (now : Int) (rate : ℚ) :
    ∀ (fuel i : Nat) (lt : List MemoryEntry),
      lt.length + 1 ≤ i + fuel → 1 ≤ fuel →
      applyDecayLoop now rate fuel i lt = none := by
  intro fuel
  induction fuel with
  | zero =>
      intro i lt h h1
      omega
  | succ fuel ih =>
      intro i lt hlen _
      rw [applyDecayLoop]
      dsimp only
      split_ifs with hi hd
      · refine ih (i + 1) _ ?_ ?_
        · rw [List.length_eraseIdx_of_lt (by simpa using hi)]
          simp only [List.length_set]
          omega
        · omega
      · refine ih (i + 1) _ ?_ ?_
        · simp only [List.length_set]
          omega
        · omega
      · rfl

/-- If the decay pass completes without faulting, every retained entry has
decay at least the 0.1 floor — provided the entries already visited do. -/
theorem applyDecayLoop_decay_floor (now : Int) (rate : ℚ) :
    ∀ (fuel i : Nat) (lt res : List MemoryEntry),
      i + fuel = lt.length →
      (∀ e ∈ lt.take i, (1:ℚ)/10 ≤ e.decay) →
      applyDecayLoop now rate fuel i lt = some res →
      ∀ e ∈ res, (1:ℚ)/10 ≤ e.decay := by
  intro fuel
  induction fuel with
  | zero =>
      intro i lt res hlen hpre h
      rw [applyDecayLoop] at h
      cases h
      intro e he
      refine hpre e ?_
      rwa [List.take_of_length_le (by omega)]
  | succ fuel ih =>
      intro i lt res hlen hpre h
      have hi : i < lt.length := by omega
      rw [applyDecayLoop, if_pos hi] at h
      dsimp only at h
      by_cases hd : (applyDecayStep now rate (lt.getD i zeroMemoryEntry)).decay < 1/10
      · rw [if_pos hd] at h
        cases fuel with
        | zero =>
            rw [applyDecayLoop] at h
            cases h
            intro e he
            rw [List.eraseIdx_eq_take_drop_succ] at he
            have hlset : (lt.set i (applyDecayStep now rate
                (lt.getD i zeroMemoryEntry))).length = lt.length := by simp
            rw [List.drop_eq_nil_of_le (by omega), List.append_nil, take_set_self] at he
            exact hpre e he
        | succ fuel' =>
            exfalso
            have hnone := applyDecayLoop_none now rate (fuel' + 1) (i + 1)
              ((lt.set i (applyDecayStep now rate (lt.getD i zeroMemoryEntry))).eraseIdx i)
              (by
                rw [List.length_eraseIdx_of_lt (by simpa using hi)]
                simp only [List.length_set]
                omega)
              (by omega)
            rw [hnone] at h
            cases h
      · rw [if_neg hd] at h
        refine ih (i + 1) _ res (by simp only [List.length_set]; omega) ?_ h
        intro e he
        rw [List.take_succ] at he
        rcases List.mem_append.mp he with h1 | h1
        · rw [take_set_self] at h1
          exact hpre e h1
        · have hget : (lt.set i (applyDecayStep now rate
              (lt.getD i zeroMemoryEntry)))[i]? =
              some (applyDecayStep now rate (lt.getD i zeroMemoryEntry)) := by
            rw [List.getElem?_set_self (by simpa using hi)]
        
          rw [hget] at h1
          simp only [Option.toList_some, List.mem_singleton] at h1
          subst h1
          linarith [not_lt.mp hd]

/-! ### Consolidation and `AddMemory` (C2, C4) -/

/-- `updateWorkingMemory` only rewrites the working partition. -/
theorem updateWorkingMemory_frame (now : Int) (mem : Memory) (prompt : String)
    (tags : List String) :
    (updateWorkingMemory now mem prompt tags).shortTerm = mem.shortTerm ∧
    (updateWorkingMemory now mem prompt tags).longTerm = mem.longTerm ∧
    (updateWorkingMemory now mem prompt tags).shortTermLimit = mem.shortTermLimit ∧
    (updateWorkingMemory now mem prompt tags).longTermLimit = mem.longTermLimit :=
  ⟨rfl, rfl, rfl, rfl⟩

/-- What a completed consolidation does: limits are untouched, and either
the early-return fired (with the guard condition recorded) or short-term
halves, long-term is within its limit, and — thanks to the decay pass —
every retained long-term entry is at or above the decay floor. -/
theorem consolidateMemories_spec (now : Int) (mem mem' : Memory)
    (h : consolidateMemories now mem = some mem') :
    mem'.shortTermLimit = mem.shortTermLimit ∧
    mem'.longTermLimit = mem.longTermLimit ∧
    ((mem' = mem ∧ (mem.shortTerm.length : Int) < mem.shortTermLimit.tdiv 2) ∨
      (mem'.shortTerm.length = mem.shortTerm.length / 2 ∧
       (mem'.longTerm.length : Int) ≤ mem.longTermLimit ∧
       (∀ e ∈ mem'.longTerm, (1:ℚ)/10 ≤ e.decay))) := by
  unfold consolidateMemories at h
  by_cases hguard : (mem.shortTerm.length : Int) < mem.shortTermLimit.tdiv 2
  · rw [if_pos hguard] at h
    cases h
    exact ⟨rfl, rfl, Or.inl ⟨rfl, hguard⟩⟩
  · rw [if_neg hguard] at h
    dsimp only at h
    by_cases htrim : ((mem.longTerm ++ consolidateSimilarMemories mem.personaID now
        (List.drop ((List.insertionSort stGE mem.shortTerm).length / 2)
          (List.insertionSort stGE mem.shortTerm))).length : Int) > mem.longTermLimit
    · rw [if_pos htrim] at h
      by_cases hneg : mem.longTermLimit < 0
      · rw [if_pos hneg] at h
        exact absurd h (by simp)
      · rw [if_neg hneg] at h
        rcases Option.map_eq_some'.mp h with ⟨lt3, hloop, hmk⟩
        subst hmk
        refine ⟨rfl, rfl, Or.inr ⟨?_, ?_, ?_⟩⟩
        · simp only [Memory.shortTerm, List.length_take, List.length_insertionSort]
          omega
        · have hlen3 := applyDecayLoop_length_le now mem.decayRate _ 0 _ lt3 hloop
          rw [List.length_take] at hlen3
          simp only [Memory.longTerm]
          omega
        · exact applyDecayLoop_decay_floor now mem.decayRate _ 0 _ lt3 (by omega)
            (by simp) hloop
    · rw [if_neg htrim] at h
      rcases Option.map_eq_some'.mp h with ⟨lt3, hloop, hmk⟩
      subst hmk
      refine ⟨rfl, rfl, Or.inr ⟨?_, ?_, ?_⟩⟩
      · simp only [Memory.shortTerm, List.length_take, List.length_insertionSort]
        omega
      · have hlen3 := applyDecayLoop_length_le now mem.decayRate _ 0 _ lt3 hloop
        simp only [Memory.longTerm]
        omega
      · exact applyDecayLoop_decay_floor now mem.decayRate _ 0 _ lt3 (by omega)
          (by simp) hloop

/-- C4 (amended): `AddMemory` preserves the capacity bounds
`|short_term| ≤ short_term_limit` and `|long_term| ≤ long_term_limit`
(for a positive short-term limit and nonnegative long-term limit, as in the
defaults 50/200), and leaves the limits themselves unchanged. -/
theorem addMemory_capacity (now : Int) (mem mem' : Memory) (content : String)
    (memType : MemoryType) (weight : ℚ) (tags : List String)
    (context : List (String × String))
    (hSTpos : 1 ≤ mem.shortTermLimit) (hLTpos : 0 ≤ mem.longTermLimit)
    (hst : (mem.shortTerm.length : Int) ≤ mem.shortTermLimit)
    (hlt : (mem.longTerm.length : Int) ≤ mem.longTermLimit)
    (h : AddMemory now mem content memType weight tags context = some mem') :
    (mem'.shortTerm.length : Int) ≤ mem'.shortTermLimit ∧
    (mem'.longTerm.length : Int) ≤ mem'.longTermLimit ∧
    mem'.shortTermLimit = mem.shortTermLimit ∧
    mem'.longTermLimit = mem.longTermLimit := by
  unfold AddMemory at h
  dsimp only at h
  rcases Option.map_eq_some'.mp h with ⟨m2, hm2, hupd⟩
  subst hupd
  rcases updateWorkingMemory_frame now m2 content tags with ⟨hw1, hw2, hw3, hw4⟩
  rw [hw1, hw2, hw3, hw4]
  split_ifs at hm2 with htrig
  · rcases consolidateMemories_spec now _ m2 hm2 with ⟨hL1, hL2, hcase⟩
    have htd : mem.shortTermLimit.tdiv 2 = mem.shortTermLimit / 2 :=
      Int.tdiv_eq_ediv (by omega) (by omega)
    rcases hcase with ⟨heq, hguard⟩ | ⟨hsplit, hltb, -⟩
    · subst heq
      simp only [Memory.shortTerm, List.length_append, List.length_cons,
        List.length_nil, Memory.shortTermLimit] at hguard htrig ⊢
      omega
    · simp only [Memory.shortTerm, List.length_append, List.length_cons,
        List.length_nil, Memory.shortTermLimit, Memory.longTermLimit] at hL1 hL2 hsplit hltb htrig ⊢
      refine ⟨?_, ?_, hL1, hL2⟩ <;> omega
  · cases hm2
    simp only [Memory.shortTerm, Memory.longTerm, Memory.shortTermLimit,
      Memory.longTermLimit, List.length_append, List.length_cons, List.length_nil] at htrig ⊢
    refine ⟨by omega, by omega, by simp, by simp⟩

/-- C2 (amended): `AddMemory` preserves the long-term decay floor — when a
triggered consolidation's decay pass completes without the out-of-range
fault, every retained long-term entry has decay ≥ 0.1. -/
theorem addMemory_decay_floor (now : Int) (mem mem' : Memory) (content : String)
    (memType : MemoryType) (weight : ℚ) (tags : List String)
    (context : List (String × String))
    (hfloor : ∀ e ∈ mem.longTerm, (1:ℚ)/10 ≤ e.decay)
    (h : AddMemory now mem content memType weight tags context = some mem') :
    ∀ e ∈ mem'.longTerm, (1:ℚ)/10 ≤ e.decay := by
  unfold AddMemory at h
  dsimp only at h
  rcases Option.map_eq_some'.mp h with ⟨m2, hm2, hupd⟩
  subst hupd
  rcases updateWorkingMemory_frame now m2 content tags with ⟨-, hw2, -, -⟩
  rw [hw2]
  split_ifs at hm2 with htrig
  · rcases consolidateMemories_spec now _ m2 hm2 with ⟨-, -, hcase⟩
    rcases hcase with ⟨heq, -⟩ | ⟨-, -, hfl⟩
    · subst heq
      exact hfloor
    · exact hfl
  · cases hm2
    exact hfloor

unseal Rat.add Rat.mul Rat.sub Rat.inv in
/-- Witness for the C4 amended theorem: one add into a fresh memory keeps
short-term within its limit. -/
theorem addMemory_capacity_witness :
    (((AddMemory 0 (NewMemory "p") "hello" "interaction" (4/5) [] []).getD
        (NewMemory "x")).shortTerm.length : Int) ≤
      ((AddMemory 0 (NewMemory "p") "hello" "interaction" (4/5) [] []).getD
        (NewMemory "x")).shortTermLimit :=
  (addMemory_capacity 0 (NewMemory "p") _ "hello" "interaction" (4/5) [] []
    (by decide) (by decide) (by decide) (by decide) (by decide)).1

/-- A long-term memory blob entry whose decay sits below the 0.1 floor. -/
def c2BadBlob : JsonBlob :=
  JsonBlob.value (Json.obj
    [("long_term", Json.arr [Json.obj [("decay", Json.num (1/20))]])])

unseal Rat.add Rat.mul Rat.sub Rat.inv in
/-- C2 counterexample: `ImportMemory` — a public memory operation — accepts
a blob carrying a long-term entry with decay 0.05, returns success, and the
resulting state retains a long-term entry below the 0.1 decay floor. -/
theorem importMemory_breaks_decay_floor :
    (ImportMemory (NewMemory "p") c2BadBlob).2 = none ∧
    (ImportMemory (NewMemory "p") c2BadBlob).1.longTerm.length = 1 ∧
    ((ImportMemory (NewMemory "p") c2BadBlob).1.longTerm.headD
        zeroMemoryEntry).decay = 1/20 ∧
    ((1:ℚ)/20 < 1/10) := by
  decide

/-- Memory with one healthy long-term entry for the C2 witness. -/
def c2Entry : MemoryEntry :=
  { id := "p_k", content := "fact", timestamp := 0, tags := [], weight := 1/2,
    context := [], type := "knowledge", decay := 1/2 }

/-- The C2 witness state: fresh memory plus one long-term entry. -/
def c2Mem : Memory := { NewMemory "p" with longTerm := [c2Entry] }

unseal Rat.add Rat.mul Rat.sub Rat.inv in
/-- Witness for the C2 amended theorem: after one add, the (sole) long-term
entry still sits at or above the floor. -/
theorem addMemory_decay_floor_witness :
    (1:ℚ)/10 ≤ (((AddMemory 0 c2Mem "hello" "interaction" (4/5) [] []).getD
      (NewMemory "x")).longTerm.headD zeroMemoryEntry).decay :=
  addMemory_decay_floor 0 c2Mem
    ((AddMemory 0 c2Mem "hello" "interaction" (4/5) [] []).getD (NewMemory "x"))
    "hello" "interaction" (4/5) [] []
    (by decide) (by decide)
    (((AddMemory 0 c2Mem "hello" "interaction" (4/5) [] []).getD
      (NewMemory "x")).longTerm.headD zeroMemoryEntry)
    (by decide)

/-- A memory blob with 51 (empty-object) short-term entries. -/
def c4BadBlob : JsonBlob :=
  JsonBlob.value (Json.obj
    [("short_term", Json.arr (List.replicate 51 (Json.obj [])))])

unseal Rat.add Rat.mul Rat.sub Rat.inv in
/-- C4 counterexample: `ImportMemory` — a public memory operation — accepts
a blob with 51 short-term entries, returns success, and leaves
`|short_term| = 51 > 50 = short_term_limit`. -/
theorem importMemory_breaks_capacity :
    (ImportMemory (NewMemory "p") c4BadBlob).2 = none ∧
    (ImportMemory (NewMemory "p") c4BadBlob).1.shortTerm.length = 51 ∧
    (ImportMemory (NewMemory "p") c4BadBlob).1.shortTermLimit = 50 := by
  decide

/-- A fresh short-term entry used to fill short-term memory to its limit. -/
def c9Fresh : MemoryEntry :=
  { id := "p_0", content := "", timestamp := 0, tags := [], weight := 1/2,
    context := [], type := "interaction", decay := 1 }

/-- A long-term entry whose decay will fall below 0.1 on the next decay pass. -/
def c9Low : MemoryEntry :=
  { id := "p_lo", content := "", timestamp := 0, tags := [], weight := 1,
    context := [], type := "knowledge", decay := 1/100 }

/-- A healthy long-term entry sitting after `c9Low`. -/
def c9High : MemoryEntry :=
  { id := "p_hi", content := "", timestamp := 0, tags := [], weight := 1,
    context := [], type := "knowledge", decay := 1 }

/-- The C9 failing state: short-term one below its limit, long-term holding a
low-decay entry followed by a healthy one. -/
def c9Mem : Memory :=
  { NewMemory "p" with
    shortTerm := List.replicate 49 c9Fresh
    longTerm := [c9Low, c9High] }

set_option maxRecDepth 4000 in
unseal Rat.add Rat.mul Rat.sub Rat.inv in
/-- C9: the 50th add triggers consolidation; its decay pass erases the
long-term entry at index 0 (decay 0.0095 < 0.1) but keeps iterating up to the
original length, so the final iteration indexes position 26 of a list of
length 26 — the out-of-bounds branch is reached and `AddMemory` ends in the
panic state `none`. -/
theorem addMemory_panics : AddMemory 0 c9Mem "" "interaction" (1/2) [] [] = none := by
  decide
